import Mathlib

/-!
Verification development for the everest collection-query pipeline and
in-memory entity cache.

The definitions below are shallow embeddings of the Python source:
* `EntityCache` and its operations embed
  `everest/repositories/memory/cache.py` (class `EntityCache`);
* the filter-specification builder embeds the behaviour pinned down by
  `everest/tests/test_filtering.py` together with the specification text
  (the module `everest/filtering.py` itself is not part of the excerpt);
* `Batch` is modelled from the specification text (the module
  `everest/batch.py` is not part of the excerpt) and the collection view
  link logic embeds `everest/views/getcollection.py`;
* `EntityRepository.new` embeds `everest/entities/repository.py`.

Python dictionaries are modelled as association lists with first-match
lookup; mutation-then-raise behaviour of the Python methods is kept by
returning the (possibly partially mutated) state together with an
optional error.
-/

namespace Everest

/-- A lookup dictionary modelled as an association list (first match wins). -/
def mget {K V : Type} [DecidableEq K] (d : List (K × V)) (k : K) : Option V :=
  match d with
  | [] => none
  | (k', v) :: t => if k' = k then some v else mget t k

/-- `d[k] = v`: replace the first binding of `k`, or append a new one. -/
def mset {K V : Type} [DecidableEq K] (d : List (K × V)) (k : K) (v : V) :
    List (K × V) :=
  match d with
  | [] => [(k, v)]
  | (k', v') :: t => if k' = k then (k, v) :: t else (k', v') :: mset t k v

/-- `del d[k]` / `d.pop(k, None)`: drop every binding of `k`. -/
def mdel {K V : Type} [DecidableEq K] (d : List (K × V)) (k : K) :
    List (K × V) :=
  match d with
  | [] => []
  | (k', v) :: t => if k' = k then mdel t k else (k', v) :: mdel t k

theorem mget_mset {K V : Type} [DecidableEq K] (d : List (K × V)) (k k' : K)
    (v : V) : mget (mset d k v) k' = if k = k' then some v else mget d k' := by
  induction d with
  | nil => simp [mset, mget]
  | cons p t ih =>
    obtain ⟨k₀, v₀⟩ := p
    by_cases h₀ : k₀ = k
    · subst h₀
      by_cases h₁ : k₀ = k'
      · subst h₁; simp [mset, mget]
      · simp [mset, mget, h₁]
    · by_cases h₁ : k₀ = k'
      · subst h₁
        have : ¬ k = k₀ := fun h => h₀ h.symm
        simp [mset, mget, h₀, this]
      · simp [mset, mget, h₀, h₁, ih]

theorem mget_mdel {K V : Type} [DecidableEq K] (d : List (K × V)) (k k' : K) :
    mget (mdel d k) k' = if k = k' then none else mget d k' := by
  induction d with
  | nil => simp [mdel, mget]
  | cons p t ih =>
    obtain ⟨k₀, v₀⟩ := p
    by_cases h₀ : k₀ = k
    · subst h₀
      by_cases h₁ : k₀ = k'
      · subst h₁; simp [mdel, mget, ih]
      · simp [mdel, mget, h₁, ih]
    · by_cases h₁ : k₀ = k'
      · subst h₁
        have hne : ¬ k = k₀ := fun h => h₀ h.symm
        simp [mdel, mget, h₀, hne]
      · simp [mdel, mget, h₀, h₁, ih]

/-- An entity as seen by the cache: an optional integer ID and an optional
slug.  (`everest` entities carry more attributes; the cache only inspects
`id` and `slug`.) -/
structure Entity where
  id : Option Nat
  slug : Option String
deriving DecidableEq

/-- Errors raised by the cache operations, mirroring the Python exceptions. -/
inductive CacheError where
  /-- `ValueError('Duplicate entity ID ...')` -/
  | duplicateId (i : Nat)
  /-- `ValueError('Entity ID must not be None.')` -/
  | noneId
  /-- `ValueError('Duplicate entity slug ...')` -/
  | duplicateSlug (s : String)
  /-- `KeyError` from `del self.__id_map[entity.id]` / `self.__id_map[...]` -/
  | keyError (i : Nat)
  /-- `ValueError` from `self.__entities.remove(entity)` when absent -/
  | notInList
deriving DecidableEq

/-- State of `EntityCache` (`everest/repositories/memory/cache.py`):
the owning entity list plus the two lookup indexes. -/
structure EntityCache where
  allow_none_id : Bool
  entities : List Entity
  id_map : List (Nat × Entity)
  slug_map : List (String × Entity)
deriving DecidableEq

/-- `EntityCache.__init__(allow_none_id)`. -/
def EntityCache.fresh (allow_none_id : Bool) : EntityCache :=
  ⟨allow_none_id, [], [], []⟩

/-- `EntityCache.get_by_id`. -/
def EntityCache.get_by_id (c : EntityCache) (entity_id : Nat) : Option Entity :=
  mget c.id_map entity_id

/-- `EntityCache.has_id`. -/
def EntityCache.has_id (c : EntityCache) (entity_id : Nat) : Bool :=
  (mget c.id_map entity_id).isSome

/-- `EntityCache.get_by_slug`. -/
def EntityCache.get_by_slug (c : EntityCache) (entity_slug : String) :
    Option Entity :=
  mget c.slug_map entity_slug

/-- `EntityCache.has_slug`. -/
def EntityCache.has_slug (c : EntityCache) (entity_slug : String) : Bool :=
  (mget c.slug_map entity_slug).isSome

/-- Second half of `EntityCache.add`: the slug check and the final append
(the Python method body after the ID block). -/
def EntityCache.addSlugAndAppend (c : EntityCache) (e : Entity) :
    EntityCache × Option CacheError :=
  match e.slug with
  | some s =>
      if (mget c.slug_map s).isSome then
        (c, some (CacheError.duplicateSlug s))
      else
        ({ c with slug_map := mset c.slug_map s e,
                  entities := c.entities ++ [e] }, none)
  | none => ({ c with entities := c.entities ++ [e] }, none)

/-- `EntityCache.add`.  On an error the returned state is the state at the
moment the Python exception is raised (mutations already performed stay). -/
def EntityCache.add (c : EntityCache) (e : Entity) :
    EntityCache × Option CacheError :=
  match e.id with
  | some i =>
      if (mget c.id_map i).isSome then
        (c, some (CacheError.duplicateId i))
      else
        EntityCache.addSlugAndAppend { c with id_map := mset c.id_map i e } e
  | none =>
      if c.allow_none_id then
        EntityCache.addSlugAndAppend c e
      else
        (c, some CacheError.noneId)

/-- `EntityCache.remove`.  Mirrors the Python order: ID check, `del` from the
ID map (KeyError when absent), `pop` from the slug map, then removal from
the owning list (`ValueError` when absent, with the map mutations kept). -/
def EntityCache.remove (c : EntityCache) (e : Entity) :
    EntityCache × Option CacheError :=
  match e.id with
  | none => (c, some CacheError.noneId)
  | some i =>
      if (mget c.id_map i).isSome then
        let c₁ : EntityCache :=
          match e.slug with
          | some s => { c with id_map := mdel c.id_map i,
                               slug_map := mdel c.slug_map s }
          | none => { c with id_map := mdel c.id_map i }
        if e ∈ c₁.entities then
          ({ c₁ with entities := c₁.entities.erase e }, none)
        else
          (c₁, some CacheError.notInList)
      else
        (c, some (CacheError.keyError i))

/-- `EntityCache.replace`: ID check, lookup of the old entity by the new
entity's ID (KeyError when absent), then `remove(old)` followed by
`add(new)`. -/
def EntityCache.replace (c : EntityCache) (e : Entity) :
    EntityCache × Option CacheError :=
  match e.id with
  | none => (c, some CacheError.noneId)
  | some i =>
      match mget c.id_map i with
      | none => (c, some (CacheError.keyError i))
      | some old =>
          match EntityCache.remove c old with
          | (c₁, none) => EntityCache.add c₁ e
          | (c₁, some er) => (c₁, some er)

/-- `EntityCache.iterator` (the owning list, in insertion order). -/
def EntityCache.iterator (c : EntityCache) : List Entity :=
  c.entities

/-- Modelled from the spec: "`replace` is defined as `remove(old-matching-id)`
then `add(new)`, and fails with the same conditions" — the composition of
looking up the cached entity under the new entity's ID, removing it, and
adding the new entity, with the missing-ID and not-found failures of that
composition. -/
def removeThenAdd (c : EntityCache) (e : Entity) :
    EntityCache × Option CacheError :=
  match e.id with
  | none => (c, some CacheError.noneId)
  | some i =>
      match mget c.id_map i with
      | none => (c, some (CacheError.keyError i))
      | some old =>
          match EntityCache.remove c old with
          | (c₁, none) => EntityCache.add c₁ e
          | (c₁, some er) => (c₁, some er)

theorem addSlugAndAppend_slug_none (c : EntityCache) (eid : Option Nat) :
    EntityCache.addSlugAndAppend c ⟨eid, none⟩ =
      ({ c with entities := c.entities ++ [⟨eid, none⟩] }, none) := rfl

theorem addSlugAndAppend_slug_some (c : EntityCache) (eid : Option Nat)
    (s : String) :
    EntityCache.addSlugAndAppend c ⟨eid, some s⟩ =
      if (mget c.slug_map s).isSome then
        (c, some (CacheError.duplicateSlug s))
      else
        ({ c with slug_map := mset c.slug_map s ⟨eid, some s⟩,
                  entities := c.entities ++ [⟨eid, some s⟩] }, none) := rfl

theorem add_id_some (c : EntityCache) (i : Nat) (eslug : Option String) :
    EntityCache.add c ⟨some i, eslug⟩ =
      if (mget c.id_map i).isSome then
        (c, some (CacheError.duplicateId i))
      else
        EntityCache.addSlugAndAppend
          { c with id_map := mset c.id_map i ⟨some i, eslug⟩ }
          ⟨some i, eslug⟩ := rfl

theorem add_id_none (c : EntityCache) (eslug : Option String) :
    EntityCache.add c ⟨none, eslug⟩ =
      if c.allow_none_id then
        EntityCache.addSlugAndAppend c ⟨none, eslug⟩
      else
        (c, some CacheError.noneId) := rfl

theorem remove_id_none (c : EntityCache) (eslug : Option String) :
    EntityCache.remove c ⟨none, eslug⟩ = (c, some CacheError.noneId) := rfl

theorem remove_id_some_slug_none (c : EntityCache) (i : Nat) :
    EntityCache.remove c ⟨some i, none⟩ =
      if (mget c.id_map i).isSome then
        if (⟨some i, none⟩ : Entity) ∈ c.entities then
          ({ c with id_map := mdel c.id_map i,
                    entities := c.entities.erase ⟨some i, none⟩ }, none)
        else
          ({ c with id_map := mdel c.id_map i }, some CacheError.notInList)
      else
        (c, some (CacheError.keyError i)) := rfl

theorem remove_id_some_slug_some (c : EntityCache) (i : Nat) (s : String) :
    EntityCache.remove c ⟨some i, some s⟩ =
      if (mget c.id_map i).isSome then
        if (⟨some i, some s⟩ : Entity) ∈ c.entities then
          ({ c with id_map := mdel c.id_map i,
                    slug_map := mdel c.slug_map s,
                    entities := c.entities.erase ⟨some i, some s⟩ }, none)
        else
          ({ c with id_map := mdel c.id_map i,
                    slug_map := mdel c.slug_map s },
            some CacheError.notInList)
      else
        (c, some (CacheError.keyError i)) := rfl

theorem addSlugAndAppend_id_map (c : EntityCache) (e : Entity) :
    (EntityCache.addSlugAndAppend c e).1.id_map = c.id_map := by
  obtain ⟨eid, eslug⟩ := e
  cases eslug with
  | none => rw [addSlugAndAppend_slug_none]
  | some s =>
      rw [addSlugAndAppend_slug_some]
      by_cases h : (mget c.slug_map s).isSome
      · rw [if_pos h]
      · rw [if_neg h]

theorem add_ok_id_map (c c' : EntityCache) (e : Entity) (i : Nat)
    (hid : e.id = some i) (h : EntityCache.add c e = (c', none)) :
    c'.id_map = mset c.id_map i e := by
  obtain ⟨eid, eslug⟩ := e
  replace hid : eid = some i := hid
  subst hid
  rw [add_id_some] at h
  by_cases hi : (mget c.id_map i).isSome
  · rw [if_pos hi] at h; simp at h
  · rw [if_neg hi] at h
    have h₂ := addSlugAndAppend_id_map
      { c with id_map := mset c.id_map i ⟨some i, eslug⟩ } ⟨some i, eslug⟩
    rw [h] at h₂
    exact h₂

/-- Every entity stored in the ID index is owned by the entity list and is
stored under its own ID. -/
def IdMapSound (c : EntityCache) : Prop :=
  ∀ i x, mget c.id_map i = some x → x ∈ c.entities ∧ x.id = some i

/-- Every entity stored in the slug index is owned by the entity list and is
stored under its own slug. -/
def SlugMapSound (c : EntityCache) : Prop :=
  ∀ s x, mget c.slug_map s = some x → x ∈ c.entities ∧ x.slug = some s

/-- Every listed entity with a non-null ID is indexed under that ID. -/
def IdComplete (c : EntityCache) : Prop :=
  ∀ x i, x ∈ c.entities → x.id = some i → mget c.id_map i = some x

/-- An entity with a non-null ID occurs at most once in the entity list. -/
def IdCountOne (c : EntityCache) : Prop :=
  ∀ x i, x.id = some i → c.entities.count x ≤ 1

/-- The inductive invariant carried through every error-free operation. -/
def StrongInv (c : EntityCache) : Prop :=
  IdMapSound c ∧ SlugMapSound c ∧ IdComplete c ∧ IdCountOne c

theorem strongInv_fresh (b : Bool) : StrongInv (EntityCache.fresh b) := by
  refine ⟨?_, ?_, ?_, ?_⟩
  · intro i x hx; cases hx
  · intro s x hx; cases hx
  · intro x i hx; cases hx
  · intro x i _; simp [EntityCache.fresh]

theorem add_ok_shape (c c' : EntityCache) (e : Entity)
    (h : EntityCache.add c e = (c', none)) :
    c'.entities = c.entities ++ [e] ∧
    (∀ i, e.id = some i →
      mget c.id_map i = none ∧ c'.id_map = mset c.id_map i e) ∧
    (e.id = none → c'.id_map = c.id_map) ∧
    (∀ s, e.slug = some s →
      mget c.slug_map s = none ∧ c'.slug_map = mset c.slug_map s e) ∧
    (e.slug = none → c'.slug_map = c.slug_map) := by
  obtain ⟨eid, eslug⟩ := e
  cases eid with
  | some i =>
      rw [add_id_some] at h
      by_cases hi : (mget c.id_map i).isSome
      · rw [if_pos hi] at h; simp at h
      · rw [if_neg hi] at h
        have hno : mget c.id_map i = none :=
          Option.not_isSome_iff_eq_none.mp hi
        cases eslug with
        | none =>
            rw [addSlugAndAppend_slug_none] at h
            have hc : c' = { c with
                id_map := mset c.id_map i ⟨some i, none⟩,
                entities := c.entities ++ [⟨some i, none⟩] } :=
              (congrArg Prod.fst h).symm
            subst hc
            refine ⟨rfl, ?_, ?_, ?_, ?_⟩
            · intro j hj
              replace hj : some i = some j := hj
              cases hj
              exact ⟨hno, rfl⟩
            · intro hj; replace hj : some i = none := hj; cases hj
            · intro s hs; replace hs : none = some s := hs; cases hs
            · intro _; rfl
        | some s =>
            rw [addSlugAndAppend_slug_some] at h
            by_cases hs : (mget ({ c with
                id_map := mset c.id_map i ⟨some i, some s⟩ } :
                  EntityCache).slug_map s).isSome
            · rw [if_pos hs] at h; simp at h
            · rw [if_neg hs] at h
              have hsno : mget c.slug_map s = none :=
                Option.not_isSome_iff_eq_none.mp hs
              have hc : c' = { c with
                  id_map := mset c.id_map i ⟨some i, some s⟩,
                  slug_map := mset c.slug_map s ⟨some i, some s⟩,
                  entities := c.entities ++ [⟨some i, some s⟩] } :=
                (congrArg Prod.fst h).symm
              subst hc
              refine ⟨rfl, ?_, ?_, ?_, ?_⟩
              · intro j hj
                replace hj : some i = some j := hj
                cases hj
                exact ⟨hno, rfl⟩
              · intro hj; replace hj : some i = none := hj; cases hj
              · intro t ht
                replace ht : some s = some t := ht
                cases ht
                exact ⟨hsno, rfl⟩
              · intro ht; replace ht : some s = none := ht; cases ht
  | none =>
      rw [add_id_none] at h
      by_cases hb : c.allow_none_id
      · rw [if_pos hb] at h
        cases eslug with
        | none =>
            rw [addSlugAndAppend_slug_none] at h
            have hc : c' = { c with
                entities := c.entities ++ [⟨none, none⟩] } :=
              (congrArg Prod.fst h).symm
            subst hc
            refine ⟨rfl, ?_, ?_, ?_, ?_⟩
            · intro j hj; replace hj : none = some j := hj; cases hj
            · intro _; rfl
            · intro s hs; replace hs : none = some s := hs; cases hs
            · intro _; rfl
        | some s =>
            rw [addSlugAndAppend_slug_some] at h
            by_cases hs : (mget c.slug_map s).isSome
            · rw [if_pos hs] at h; simp at h
            · rw [if_neg hs] at h
              have hsno : mget c.slug_map s = none :=
                Option.not_isSome_iff_eq_none.mp hs
              have hc : c' = { c with
                  slug_map := mset c.slug_map s ⟨none, some s⟩,
                  entities := c.entities ++ [⟨none, some s⟩] } :=
                (congrArg Prod.fst h).symm
              subst hc
              refine ⟨rfl, ?_, ?_, ?_, ?_⟩
              · intro j hj; replace hj : none = some j := hj; cases hj
              · intro _; rfl
              · intro t ht
                replace ht : some s = some t := ht
                cases ht
                exact ⟨hsno, rfl⟩
              · intro ht; replace ht : some s = none := ht; cases ht
      · rw [if_neg hb] at h; simp at h

theorem remove_ok_shape (c c' : EntityCache) (e : Entity)
    (h : EntityCache.remove c e = (c', none)) :
    ∃ i, e.id = some i ∧ e ∈ c.entities ∧
      c'.entities = c.entities.erase e ∧
      c'.id_map = mdel c.id_map i ∧
      (∀ s, e.slug = some s → c'.slug_map = mdel c.slug_map s) ∧
      (e.slug = none → c'.slug_map = c.slug_map) := by
  obtain ⟨eid, eslug⟩ := e
  cases eid with
  | none => rw [remove_id_none] at h; simp at h
  | some i =>
      cases eslug with
      | none =>
          rw [remove_id_some_slug_none] at h
          by_cases hi : (mget c.id_map i).isSome
          · rw [if_pos hi] at h
            by_cases hm : (⟨some i, none⟩ : Entity) ∈ c.entities
            · rw [if_pos hm] at h
              have hc : c' = { c with
                  id_map := mdel c.id_map i,
                  entities := c.entities.erase ⟨some i, none⟩ } :=
                (congrArg Prod.fst h).symm
              subst hc
              refine ⟨i, rfl, hm, rfl, rfl, ?_, ?_⟩
              · intro s hs; replace hs : none = some s := hs; cases hs
              · intro _; rfl
            · rw [if_neg hm] at h; simp at h
          · rw [if_neg hi] at h; simp at h
      | some s =>
          rw [remove_id_some_slug_some] at h
          by_cases hi : (mget c.id_map i).isSome
          · rw [if_pos hi] at h
            by_cases hm : (⟨some i, some s⟩ : Entity) ∈ c.entities
            · rw [if_pos hm] at h
              have hc : c' = { c with
                  id_map := mdel c.id_map i,
                  slug_map := mdel c.slug_map s,
                  entities := c.entities.erase ⟨some i, some s⟩ } :=
                (congrArg Prod.fst h).symm
              subst hc
              refine ⟨i, rfl, hm, rfl, rfl, ?_, ?_⟩
              · intro t ht
                replace ht : some s = some t := ht
                cases ht
                rfl
              · intro ht; replace ht : some s = none := ht; cases ht
            · rw [if_neg hm] at h; simp at h
          · rw [if_neg hi] at h; simp at h

theorem replace_ok_inv (c c' : EntityCache) (e : Entity)
    (h : EntityCache.replace c e = (c', none)) :
    ∃ old c₁, EntityCache.remove c old = (c₁, none) ∧
      EntityCache.add c₁ e = (c', none) := by
  obtain ⟨eid, eslug⟩ := e
  cases eid with
  | none =>
      replace h : (c, some CacheError.noneId) = (c', none) := h
      simp at h
  | some i =>
      replace h : (match mget c.id_map i with
        | none => (c, some (CacheError.keyError i))
        | some old =>
            match EntityCache.remove c old with
            | (c₁, none) => EntityCache.add c₁ ⟨some i, eslug⟩
            | (c₁, some er) => (c₁, some er)) = (c', none) := h
      cases hold : mget c.id_map i with
      | none => rw [hold] at h; simp at h
      | some old =>
          rw [hold] at h
          replace h : (match EntityCache.remove c old with
            | (c₁, none) => EntityCache.add c₁ ⟨some i, eslug⟩
            | (c₁, some er) => (c₁, some er)) = (c', none) := h
          rcases hrem : EntityCache.remove c old with ⟨c₁, err⟩
          rw [hrem] at h
          cases err with
          | none =>
              replace h : EntityCache.add c₁ ⟨some i, eslug⟩ = (c', none) := h
              exact ⟨old, c₁, hrem, h⟩
          | some er =>
              replace h : (c₁, some er) = (c', none) := h
              simp at h

theorem strongInv_add (c c' : EntityCache) (e : Entity)
    (h : EntityCache.add c e = (c', none)) (hinv : StrongInv c) :
    StrongInv c' := by
  obtain ⟨hids, hslugs, hcomp, hcount⟩ := hinv
  obtain ⟨hent, hidsome, hidnone, hslugsome, hslugnone⟩ :=
    add_ok_shape c c' e h
  refine ⟨?_, ?_, ?_, ?_⟩
  · intro i x hx
    cases hid : e.id with
    | some j =>
        obtain ⟨hno, hmap⟩ := hidsome j hid
        rw [hmap, mget_mset] at hx
        by_cases hji : j = i
        · subst hji
          rw [if_pos rfl] at hx
          injection hx with hx
          subst hx
          rw [hent]
          exact ⟨by simp, hid⟩
        · rw [if_neg hji] at hx
          obtain ⟨hxm, hxid⟩ := hids i x hx
          rw [hent]
          exact ⟨List.mem_append_left _ hxm, hxid⟩
    | none =>
        rw [hidnone hid] at hx
        obtain ⟨hxm, hxid⟩ := hids i x hx
        rw [hent]
        exact ⟨List.mem_append_left _ hxm, hxid⟩
  · intro s x hx
    cases hslug : e.slug with
    | some t =>
        obtain ⟨hno, hmap⟩ := hslugsome t hslug
        rw [hmap, mget_mset] at hx
        by_cases hts : t = s
        · subst hts
          rw [if_pos rfl] at hx
          injection hx with hx
          subst hx
          rw [hent]
          exact ⟨by simp, hslug⟩
        · rw [if_neg hts] at hx
          obtain ⟨hxm, hxslug⟩ := hslugs s x hx
          rw [hent]
          exact ⟨List.mem_append_left _ hxm, hxslug⟩
    | none =>
        rw [hslugnone hslug] at hx
        obtain ⟨hxm, hxslug⟩ := hslugs s x hx
        rw [hent]
        exact ⟨List.mem_append_left _ hxm, hxslug⟩
  · intro x i hx hxid
    rw [hent] at hx
    rcases List.mem_append.mp hx with hx | hx
    · have hmg := hcomp x i hx hxid
      cases hid : e.id with
      | some j =>
          obtain ⟨hno, hmap⟩ := hidsome j hid
          rw [hmap, mget_mset]
          by_cases hji : j = i
          · subst hji; rw [hno] at hmg; cases hmg
          · rw [if_neg hji]; exact hmg
      | none => rw [hidnone hid]; exact hmg
    · have hx' : x = e := by simpa using hx
      subst hx'
      obtain ⟨hno, hmap⟩ := hidsome i hxid
      rw [hmap, mget_mset, if_pos rfl]
  · intro x i hxid
    rw [hent, List.count_append]
    by_cases hxe : x = e
    · subst hxe
      obtain ⟨hno, _⟩ := hidsome i hxid
      have hnm : x ∉ c.entities := by
        intro hm
        rw [hcomp x i hm hxid] at hno
        cases hno
      rw [List.count_eq_zero.mpr hnm]
      simp
    · rw [List.count_singleton', if_neg (fun hh => hxe hh.symm)]
      simpa using hcount x i hxid

theorem strongInv_remove (c c' : EntityCache) (e : Entity)
    (h : EntityCache.remove c e = (c', none)) (hinv : StrongInv c) :
    StrongInv c' := by
  obtain ⟨hids, hslugs, hcomp, hcount⟩ := hinv
  obtain ⟨i, hid, hmem, hent, hidmap, hslugsome, hslugnone⟩ :=
    remove_ok_shape c c' e h
  have hmge : mget c.id_map i = some e := hcomp e i hmem hid
  have hcnt1 : c.entities.count e ≤ 1 := hcount e i hid
  have hgone : e ∉ c'.entities := by
    rw [hent]
    intro hmem'
    have h1 : 0 < (c.entities.erase e).count e :=
      List.count_pos_iff.mpr hmem'
    rw [List.count_erase_self] at h1
    omega
  refine ⟨?_, ?_, ?_, ?_⟩
  · intro j x hx
    rw [hidmap, mget_mdel] at hx
    by_cases hij : i = j
    · subst hij; rw [if_pos rfl] at hx; cases hx
    · rw [if_neg hij] at hx
      obtain ⟨hxm, hxid⟩ := hids j x hx
      have hxe : x ≠ e := by
        intro hh
        subst hh
        rw [hid] at hxid
        injection hxid with hji
        exact hij hji
      rw [hent]
      exact ⟨(List.mem_erase_of_ne hxe).mpr hxm, hxid⟩
  · intro t x hx
    cases hslug : e.slug with
    | some s =>
        rw [hslugsome s hslug, mget_mdel] at hx
        by_cases hst : s = t
        · subst hst; rw [if_pos rfl] at hx; cases hx
        · rw [if_neg hst] at hx
          obtain ⟨hxm, hxslug⟩ := hslugs t x hx
          have hxe : x ≠ e := by
            intro hh
            subst hh
            rw [hslug] at hxslug
            injection hxslug with hts
            exact hst hts
          rw [hent]
          exact ⟨(List.mem_erase_of_ne hxe).mpr hxm, hxslug⟩
    | none =>
        rw [hslugnone hslug] at hx
        obtain ⟨hxm, hxslug⟩ := hslugs t x hx
        have hxe : x ≠ e := by
          intro hh
          subst hh
          rw [hslug] at hxslug
          cases hxslug
        rw [hent]
        exact ⟨(List.mem_erase_of_ne hxe).mpr hxm, hxslug⟩
  · intro x j hx hxid
    have hxe : x ≠ e := by
      intro hh
      subst hh
      exact hgone hx
    have hxm : x ∈ c.entities := by
      rw [hent] at hx
      exact List.mem_of_mem_erase hx
    have hmg := hcomp x j hxm hxid
    rw [hidmap, mget_mdel]
    by_cases hij : i = j
    · subst hij
      rw [hmge] at hmg
      injection hmg with hmg
      exact absurd hmg.symm hxe
    · rw [if_neg hij]; exact hmg
  · intro x j hxid
    rw [hent]
    calc (c.entities.erase e).count x
        ≤ c.entities.count x := (List.erase_sublist e c.entities).count_le x
      _ ≤ 1 := hcount x j hxid

theorem strongInv_replace (c c' : EntityCache) (e : Entity)
    (h : EntityCache.replace c e = (c', none)) (hinv : StrongInv c) :
    StrongInv c' := by
  obtain ⟨old, c₁, hrem, hadd⟩ := replace_ok_inv c c' e h
  exact strongInv_add c₁ c' e hadd (strongInv_remove c c₁ old hrem hinv)

/-- One error-free mutating cache operation. -/
inductive Step : EntityCache → EntityCache → Prop where
  | add (c c' : EntityCache) (e : Entity)
      (h : EntityCache.add c e = (c', none)) : Step c c'
  | remove (c c' : EntityCache) (e : Entity)
      (h : EntityCache.remove c e = (c', none)) : Step c c'
  | replace (c c' : EntityCache) (e : Entity)
      (h : EntityCache.replace c e = (c', none)) : Step c c'

/-- Cache states reachable from a fresh cache by error-free operations. -/
def Reachable (b : Bool) (c : EntityCache) : Prop :=
  Relation.ReflTransGen Step (EntityCache.fresh b) c

theorem strongInv_step (c c' : EntityCache) (h : Step c c')
    (hinv : StrongInv c) : StrongInv c' := by
  cases h with
  | add e hh => exact strongInv_add c c' e hh hinv
  | remove e hh => exact strongInv_remove c c' e hh hinv
  | replace e hh => exact strongInv_replace c c' e hh hinv

/-- C10: every cache reachable from a fresh cache by error-free `add`,
`remove` and `replace` operations has indexes consistent with the owning
list: every indexed entity is yielded by `iterator` and is stored under its
own ID resp. slug, and distinct listed entities with non-null IDs have
distinct IDs. -/
theorem reachable_cache_consistent (b : Bool) (c : EntityCache)
    (h : Reachable b c) :
    (∀ i x, mget c.id_map i = some x →
      x ∈ EntityCache.iterator c ∧ x.id = some i) ∧
    (∀ s x, mget c.slug_map s = some x →
      x ∈ EntityCache.iterator c ∧ x.slug = some s) ∧
    (∀ x y i, x ∈ EntityCache.iterator c → y ∈ EntityCache.iterator c →
      x.id = some i → y.id = some i → x = y) := by
  have hinv : StrongInv c := by
    induction h with
    | refl => exact strongInv_fresh b
    | tail hsteps hstep ih => exact strongInv_step _ _ hstep ih
  obtain ⟨hids, hslugs, hcomp, _⟩ := hinv
  refine ⟨hids, hslugs, ?_⟩
  intro x y i hx hy hxi hyi
  have h1 := hcomp x i hx hxi
  have h2 := hcomp y i hy hyi
  rw [h1] at h2
  exact Option.some.inj h2

/-- Witness for C10 at the fresh cache (reachable by the empty sequence). -/
theorem reachable_cache_consistent_witness :
    (∀ i x, mget (EntityCache.fresh false).id_map i = some x →
      x ∈ EntityCache.iterator (EntityCache.fresh false) ∧ x.id = some i) ∧
    (∀ s x, mget (EntityCache.fresh false).slug_map s = some x →
      x ∈ EntityCache.iterator (EntityCache.fresh false) ∧
        x.slug = some s) ∧
    (∀ x y i, x ∈ EntityCache.iterator (EntityCache.fresh false) →
      y ∈ EntityCache.iterator (EntityCache.fresh false) →
      x.id = some i → y.id = some i → x = y) :=
  reachable_cache_consistent false (EntityCache.fresh false)
    Relation.ReflTransGen.refl

/-- C1: a successful `add e₁` followed by `add e₂` with the same non-null ID
raises the duplicate-ID error and returns the state after `add e₁`
unchanged (the duplicate check precedes every mutation). -/
theorem add_duplicate_id_fails_unchanged
    (c c₁ : EntityCache) (e₁ e₂ : Entity) (i : Nat)
    (h₁ : e₁.id = some i) (h₂ : e₂.id = some i)
    (hadd : EntityCache.add c e₁ = (c₁, none)) :
    EntityCache.add c₁ e₂ = (c₁, some (CacheError.duplicateId i)) := by
  have hget : mget c₁.id_map i = some e₁ := by
    rw [add_ok_id_map c c₁ e₁ i h₁ hadd, mget_mset]
    simp
  obtain ⟨eid₂, eslug₂⟩ := e₂
  replace h₂ : eid₂ = some i := h₂
  subst h₂
  rw [add_id_some, hget]
  simp

/-- Witness for C1 at a concrete cache and entities. -/
theorem add_duplicate_id_fails_unchanged_witness :
    EntityCache.add
        (EntityCache.add (EntityCache.fresh false)
          ⟨some 1, some "a"⟩).1 ⟨some 1, some "b"⟩ =
      ((EntityCache.add (EntityCache.fresh false) ⟨some 1, some "a"⟩).1,
        some (CacheError.duplicateId 1)) :=
  add_duplicate_id_fails_unchanged (EntityCache.fresh false) _
    ⟨some 1, some "a"⟩ ⟨some 1, some "b"⟩ 1 rfl rfl (by decide)

/-- C6: `replace` coincides with the composition "remove the cached entity
with the new entity's ID, then add the new entity", including the
missing-ID and not-found error conditions. -/
theorem replace_eq_removeThenAdd (c : EntityCache) (e : Entity) :
    EntityCache.replace c e = removeThenAdd c e ∧
    (e.id = none → EntityCache.replace c e = (c, some CacheError.noneId)) ∧
    (∀ i, e.id = some i → mget c.id_map i = none →
      EntityCache.replace c e = (c, some (CacheError.keyError i))) := by
  refine ⟨rfl, ?_, ?_⟩
  · intro h
    obtain ⟨eid, eslug⟩ := e
    replace h : eid = none := h
    subst h
    rfl
  · intro i h hi
    obtain ⟨eid, eslug⟩ := e
    replace h : eid = some i := h
    subst h
    show (match mget c.id_map i with
      | none => (c, some (CacheError.keyError i))
      | some old =>
          match EntityCache.remove c old with
          | (c₁, none) => EntityCache.add c₁ ⟨some i, eslug⟩
          | (c₁, some er) => (c₁, some er)) =
      (c, some (CacheError.keyError i))
    rw [hi]

/-- Witness for C6 at a concrete cache and entity. -/
theorem replace_eq_removeThenAdd_witness :
    EntityCache.replace (EntityCache.fresh false) ⟨some 2, some "x"⟩ =
        removeThenAdd (EntityCache.fresh false) ⟨some 2, some "x"⟩ ∧
      EntityCache.replace (EntityCache.fresh false) ⟨some 2, some "x"⟩ =
        (EntityCache.fresh false, some (CacheError.keyError 2)) := by
  refine ⟨(replace_eq_removeThenAdd (EntityCache.fresh false)
    ⟨some 2, some "x"⟩).1, ?_⟩
  exact (replace_eq_removeThenAdd (EntityCache.fresh false)
    ⟨some 2, some "x"⟩).2.2 2 rfl rfl

/-- C7: `remove` raises the missing-ID error on a null ID and the not-found
error on an unindexed ID (leaving the state unchanged in both cases), and a
successful `remove` makes `get_by_id` on that ID return none. -/
theorem remove_errors_and_clears_id (c : EntityCache) (e : Entity) :
    (e.id = none → EntityCache.remove c e = (c, some CacheError.noneId)) ∧
    (∀ i, e.id = some i → mget c.id_map i = none →
      EntityCache.remove c e = (c, some (CacheError.keyError i))) ∧
    (∀ i c', e.id = some i → EntityCache.remove c e = (c', none) →
      EntityCache.get_by_id c' i = none) := by
  refine ⟨?_, ?_, ?_⟩
  · intro h
    obtain ⟨eid, eslug⟩ := e
    replace h : eid = none := h
    subst h
    rw [remove_id_none]
  · intro i h hi
    obtain ⟨eid, eslug⟩ := e
    replace h : eid = some i := h
    subst h
    cases eslug with
    | none => rw [remove_id_some_slug_none, hi]; rfl
    | some s => rw [remove_id_some_slug_some, hi]; rfl
  · intro i c' h hr
    obtain ⟨eid, eslug⟩ := e
    replace h : eid = some i := h
    subst h
    cases eslug with
    | none =>
        rw [remove_id_some_slug_none] at hr
        by_cases hi : (mget c.id_map i).isSome
        · rw [if_pos hi] at hr
          by_cases hm : (⟨some i, none⟩ : Entity) ∈ c.entities
          · rw [if_pos hm] at hr
            have hc : c' = { c with
                id_map := mdel c.id_map i,
                entities := c.entities.erase ⟨some i, none⟩ } :=
              (congrArg Prod.fst hr).symm
            subst hc
            simp [EntityCache.get_by_id, mget_mdel]
          · rw [if_neg hm] at hr
            simp at hr
        · rw [if_neg hi] at hr
          simp at hr
    | some s =>
        rw [remove_id_some_slug_some] at hr
        by_cases hi : (mget c.id_map i).isSome
        · rw [if_pos hi] at hr
          by_cases hm : (⟨some i, some s⟩ : Entity) ∈ c.entities
          · rw [if_pos hm] at hr
            have hc : c' = { c with
                id_map := mdel c.id_map i,
                slug_map := mdel c.slug_map s,
                entities := c.entities.erase ⟨some i, some s⟩ } :=
              (congrArg Prod.fst hr).symm
            subst hc
            simp [EntityCache.get_by_id, mget_mdel]
          · rw [if_neg hm] at hr
            simp at hr
        · rw [if_neg hi] at hr
          simp at hr

/-- Witness for C7 at a concrete cache and entity. -/
theorem remove_errors_and_clears_id_witness :
    EntityCache.get_by_id
        (EntityCache.remove
          (EntityCache.add (EntityCache.fresh false) ⟨some 5, some "s"⟩).1
          ⟨some 5, some "s"⟩).1 5 = none :=
  (remove_errors_and_clears_id
      (EntityCache.add (EntityCache.fresh false) ⟨some 5, some "s"⟩).1
      ⟨some 5, some "s"⟩).2.2 5 _ rfl (by decide)

/-- C9: on the duplicate-slug path, `add` has already inserted the entity
into the ID index before raising: afterwards `has_id` holds and `get_by_id`
returns the entity, while the owning entity list (and hence `iterator`) and
the slug index are unchanged. -/
theorem add_duplicate_slug_partial_insert
    (c : EntityCache) (e : Entity) (i : Nat) (s : String)
    (hid : e.id = some i) (hslug : e.slug = some s)
    (hno : mget c.id_map i = none)
    (hdup : (mget c.slug_map s).isSome = true) :
    ∃ c', EntityCache.add c e = (c', some (CacheError.duplicateSlug s)) ∧
      c'.id_map = mset c.id_map i e ∧
      EntityCache.has_id c' i = true ∧
      EntityCache.get_by_id c' i = some e ∧
      c'.entities = c.entities ∧
      EntityCache.iterator c' = c.entities ∧
      c'.slug_map = c.slug_map := by
  obtain ⟨eid, eslug⟩ := e
  replace hid : eid = some i := hid
  replace hslug : eslug = some s := hslug
  subst hid
  subst hslug
  refine ⟨{ c with id_map := mset c.id_map i ⟨some i, some s⟩ },
    ?_, rfl, ?_, ?_, rfl, rfl, rfl⟩
  · rw [add_id_some, hno]
    show EntityCache.addSlugAndAppend
        { c with id_map := mset c.id_map i ⟨some i, some s⟩ }
        ⟨some i, some s⟩ = _
    rw [addSlugAndAppend_slug_some]
    simp only [hdup]
    rfl
  · simp [EntityCache.has_id, mget_mset]
  · simp [EntityCache.get_by_id, mget_mset]

/-- Witness for C9 at a concrete cache and entities. -/
theorem add_duplicate_slug_partial_insert_witness :
    ∃ c', EntityCache.add
        (EntityCache.add (EntityCache.fresh false) ⟨some 1, some "s"⟩).1
        ⟨some 2, some "s"⟩ = (c', some (CacheError.duplicateSlug "s")) ∧
      c'.id_map = mset (EntityCache.add (EntityCache.fresh false)
        ⟨some 1, some "s"⟩).1.id_map 2 ⟨some 2, some "s"⟩ ∧
      EntityCache.has_id c' 2 = true ∧
      EntityCache.get_by_id c' 2 = some ⟨some 2, some "s"⟩ ∧
      c'.entities = (EntityCache.add (EntityCache.fresh false)
        ⟨some 1, some "s"⟩).1.entities ∧
      EntityCache.iterator c' = (EntityCache.add (EntityCache.fresh false)
        ⟨some 1, some "s"⟩).1.entities ∧
      c'.slug_map = (EntityCache.add (EntityCache.fresh false)
        ⟨some 1, some "s"⟩).1.slug_map :=
  add_duplicate_slug_partial_insert _ ⟨some 2, some "s"⟩ 2 "s" rfl rfl
    (by decide) (by decide)

/-! ## Filter specification builder

Modelled from the spec: the modules `everest/specifications.py` and
`everest/filtering.py` are not part of the excerpt; the model below follows
§3/§4.2 of the specification text, pinned to the behaviour required by
`everest/tests/test_filtering.py` (which is part of the excerpt and is
re-proved below as `model_test_*` theorems). -/

/-- A comparison value in a filter criterion (the tests use strings and
integers). -/
inductive Value where
  | s (x : String)
  | n (x : Int)
deriving DecidableEq

/-- Immutable filter-specification tree: the nine leaf kinds plus
conjunction, disjunction and negation. -/
inductive FilterSpec where
  | equalTo (attr : String) (v : Value)
  | startsWith (attr : String) (v : Value)
  | endsWith (attr : String) (v : Value)
  | containsValue (attr : String) (v : Value)
  | contained (attr : String) (vs : List Value)
  | greaterThan (attr : String) (v : Value)
  | greaterThanOrEqualTo (attr : String) (v : Value)
  | lessThan (attr : String) (v : Value)
  | lessThanOrEqualTo (attr : String) (v : Value)
  | inRange (attr : String) (lo hi : Value)
  | conjunction (a b : FilterSpec)
  | disjunction (a b : FilterSpec)
  | negation (a : FilterSpec)
deriving DecidableEq

def Value.le (a b : Value) : Bool :=
  match a, b with
  | .n x, .n y => decide (x ≤ y)
  | .s x, .s y => decide (x ≤ y)
  | _, _ => false

def Value.lt (a b : Value) : Bool :=
  match a, b with
  | .n x, .n y => decide (x < y)
  | .s x, .s y => decide (x < y)
  | _, _ => false

def valueStartsWith (x v : Value) : Bool :=
  match x, v with
  | .s a, .s p => a.startsWith p
  | _, _ => false

def valueEndsWith (x v : Value) : Bool :=
  match x, v with
  | .s a, .s p => a.endsWith p
  | _, _ => false

def valueContains (x v : Value) : Bool :=
  match x, v with
  | .s a, .s p => decide (p.data <:+: a.data)
  | _, _ => false

/-- Evaluation of a specification tree against an attribute valuation:
the in-memory filter semantics of the tree. -/
def FilterSpec.eval (sp : FilterSpec) (a : String → Value) : Bool :=
  match sp with
  | .equalTo attr v => decide (a attr = v)
  | .startsWith attr v => valueStartsWith (a attr) v
  | .endsWith attr v => valueEndsWith (a attr) v
  | .containsValue attr v => valueContains (a attr) v
  | .contained attr vs => decide (a attr ∈ vs)
  | .greaterThan attr v => Value.lt v (a attr)
  | .greaterThanOrEqualTo attr v => Value.le v (a attr)
  | .lessThan attr v => Value.lt (a attr) v
  | .lessThanOrEqualTo attr v => Value.le (a attr) v
  | .inRange attr lo hi => Value.le lo (a attr) && Value.le (a attr) hi
  | .conjunction p q => p.eval a && q.eval a
  | .disjunction p q => p.eval a || q.eval a
  | .negation p => ! p.eval a

/-- True exactly on the nine leaf variants. -/
def FilterSpec.isLeaf (sp : FilterSpec) : Bool :=
  match sp with
  | .conjunction _ _ => false
  | .disjunction _ _ => false
  | .negation _ => false
  | _ => true

/-- Builder state: per-attribute accumulated sub-specifications in
first-seen order (§4.2: track per-attribute sub-specifications separately
before folding into the global AND). -/
structure FilterSpecificationBuilder where
  specs : List (String × FilterSpec)
deriving DecidableEq

def FilterSpecificationBuilder.fresh : FilterSpecificationBuilder := ⟨[]⟩

/-- Combination rule: OR with the previous contribution under the same
attribute name, plain association for a first-seen attribute. -/
def recordSpec (b : FilterSpecificationBuilder) (attr : String)
    (sp : FilterSpec) : FilterSpecificationBuilder :=
  match mget b.specs attr with
  | some old => ⟨mset b.specs attr (FilterSpec.disjunction old sp)⟩
  | none => ⟨b.specs ++ [(attr, sp)]⟩

/-- The call-level specification of a single-valued operator: one leaf per
supplied value, folded together by disjunction (`none` on an empty value
list, for which the source has no defined behaviour). -/
def singleValuedCallSpec (leaf : Value → FilterSpec) (values : List Value) :
    Option FilterSpec :=
  match values with
  | [] => none
  | v :: vs =>
      some (vs.foldl (fun acc w => FilterSpec.disjunction acc (leaf w))
        (leaf v))

/-- The call-level specification of `build_equal_to`: an equal-to leaf for a
single value, a set-membership (contained) leaf for several values
(`test_build_conjunction_with_disjunction`). -/
def equalToCallSpec (attr : String) (values : List Value) : FilterSpec :=
  match values with
  | [v] => FilterSpec.equalTo attr v
  | vs => FilterSpec.contained attr vs

def build_equal_to (b : FilterSpecificationBuilder) (attr : String)
    (values : List Value) : FilterSpecificationBuilder :=
  recordSpec b attr (equalToCallSpec attr values)

def build_not_equal_to (b : FilterSpecificationBuilder) (attr : String)
    (values : List Value) : FilterSpecificationBuilder :=
  recordSpec b attr (FilterSpec.negation (equalToCallSpec attr values))

def buildSingleValued (leaf : Value → FilterSpec) (negate : Bool)
    (b : FilterSpecificationBuilder) (attr : String) (values : List Value) :
    FilterSpecificationBuilder :=
  match singleValuedCallSpec leaf values with
  | none => b
  | some sp =>
      recordSpec b attr (if negate then FilterSpec.negation sp else sp)

def build_starts_with (b : FilterSpecificationBuilder) (attr : String)
    (values : List Value) : FilterSpecificationBuilder :=
  buildSingleValued (FilterSpec.startsWith attr) false b attr values

def build_not_starts_with (b : FilterSpecificationBuilder) (attr : String)
    (values : List Value) : FilterSpecificationBuilder :=
  buildSingleValued (FilterSpec.startsWith attr) true b attr values

def build_ends_with (b : FilterSpecificationBuilder) (attr : String)
    (values : List Value) : FilterSpecificationBuilder :=
  buildSingleValued (FilterSpec.endsWith attr) false b attr values

def build_not_ends_with (b : FilterSpecificationBuilder) (attr : String)
    (values : List Value) : FilterSpecificationBuilder :=
  buildSingleValued (FilterSpec.endsWith attr) true b attr values

def build_contains (b : FilterSpecificationBuilder) (attr : String)
    (values : List Value) : FilterSpecificationBuilder :=
  buildSingleValued (FilterSpec.containsValue attr) false b attr values

def build_not_contains (b : FilterSpecificationBuilder) (attr : String)
    (values : List Value) : FilterSpecificationBuilder :=
  buildSingleValued (FilterSpec.containsValue attr) true b attr values

def build_greater_than (b : FilterSpecificationBuilder) (attr : String)
    (values : List Value) : FilterSpecificationBuilder :=
  buildSingleValued (FilterSpec.greaterThan attr) false b attr values

def build_greater_than_or_equal_to (b : FilterSpecificationBuilder)
    (attr : String) (values : List Value) : FilterSpecificationBuilder :=
  buildSingleValued (FilterSpec.greaterThanOrEqualTo attr) false b attr values

def build_less_than (b : FilterSpecificationBuilder) (attr : String)
    (values : List Value) : FilterSpecificationBuilder :=
  buildSingleValued (FilterSpec.lessThan attr) false b attr values

def build_less_than_or_equal_to (b : FilterSpecificationBuilder)
    (attr : String) (values : List Value) : FilterSpecificationBuilder :=
  buildSingleValued (FilterSpec.lessThanOrEqualTo attr) false b attr values

/-- `build_in_range` takes `values[0]` as the inclusive (lower, upper)
bound pair. -/
def build_in_range (b : FilterSpecificationBuilder) (attr : String)
    (values : List (Value × Value)) : FilterSpecificationBuilder :=
  match values with
  | [] => b
  | (lo, hi) :: _ => recordSpec b attr (FilterSpec.inRange attr lo hi)

def build_not_in_range (b : FilterSpecificationBuilder) (attr : String)
    (values : List (Value × Value)) : FilterSpecificationBuilder :=
  match values with
  | [] => b
  | (lo, hi) :: _ =>
      recordSpec b attr (FilterSpec.negation (FilterSpec.inRange attr lo hi))

/-- `get_specification`: the per-attribute sub-specifications folded by
conjunction in first-seen order (`None` when nothing was built). -/
def FilterSpecificationBuilder.get_specification
    (b : FilterSpecificationBuilder) : Option FilterSpec :=
  match b.specs with
  | [] => none
  | (_, sp) :: t =>
      some (t.foldl (fun acc p => FilterSpec.conjunction acc p.2) sp)

/-! Model validation: the expectations of
`everest/tests/test_filtering.py`, re-proved on the model. -/

theorem model_test_build_equal_to :
    (build_equal_to FilterSpecificationBuilder.fresh "name"
      [Value.s "Nikos"]).get_specification =
    some (FilterSpec.equalTo "name" (Value.s "Nikos")) := rfl

theorem model_test_build_not_equal_to :
    (build_not_equal_to FilterSpecificationBuilder.fresh "name"
      [Value.s "Nikos"]).get_specification =
    some (FilterSpec.negation (FilterSpec.equalTo "name"
      (Value.s "Nikos"))) := rfl

theorem model_test_build_starts_with :
    (build_starts_with FilterSpecificationBuilder.fresh "name"
      [Value.s "Ni"]).get_specification =
    some (FilterSpec.startsWith "name" (Value.s "Ni")) := rfl

theorem model_test_build_in_range :
    (build_in_range FilterSpecificationBuilder.fresh "age"
      [(Value.n 30, Value.n 40)]).get_specification =
    some (FilterSpec.inRange "age" (Value.n 30) (Value.n 40)) := rfl

theorem model_test_build_not_in_range :
    (build_not_in_range FilterSpecificationBuilder.fresh "age"
      [(Value.n 30, Value.n 40)]).get_specification =
    some (FilterSpec.negation (FilterSpec.inRange "age" (Value.n 30)
      (Value.n 40))) := rfl

theorem model_test_build_conjunction :
    (build_equal_to (build_greater_than FilterSpecificationBuilder.fresh
      "age" [Value.n 34]) "name" [Value.s "Nikos"]).get_specification =
    some (FilterSpec.conjunction
      (FilterSpec.greaterThan "age" (Value.n 34))
      (FilterSpec.equalTo "name" (Value.s "Nikos"))) := rfl

theorem model_test_build_disjunction :
    (build_starts_with FilterSpecificationBuilder.fresh "name"
      [Value.s "Ni", Value.s "Ol"]).get_specification =
    some (FilterSpec.disjunction
      (FilterSpec.startsWith "name" (Value.s "Ni"))
      (FilterSpec.startsWith "name" (Value.s "Ol"))) := rfl

theorem model_test_build_conjunction_with_disjunction :
    (build_starts_with (build_equal_to FilterSpecificationBuilder.fresh
      "age" [Value.n 34, Value.n 44]) "name"
      [Value.s "Ni", Value.s "Ol"]).get_specification =
    some (FilterSpec.conjunction
      (FilterSpec.contained "age" [Value.n 34, Value.n 44])
      (FilterSpec.disjunction
        (FilterSpec.startsWith "name" (Value.s "Ni"))
        (FilterSpec.startsWith "name" (Value.s "Ol")))) := rfl

theorem eval_equalToCallSpec (A : String) (V : List Value) (hV : V ≠ [])
    (a : String → Value) :
    (equalToCallSpec A V).eval a = decide (a A ∈ V) := by
  match V with
  | [] => exact absurd rfl hV
  | [v] => simp [equalToCallSpec, FilterSpec.eval]
  | v :: w :: t => rfl

/-- C2: on a fresh builder, `build_equal_to(A, V1)` then
`build_equal_to(A, V2)` yields via `get_specification` a tree logically
equivalent to (equal-to(A,V1) OR equal-to(A,V2)); a further criterion under
a different attribute `B` is combined with that sub-expression by
conjunction. -/
theorem build_equal_to_or_within_and_across
    (A B : String) (hBA : B ≠ A) (V1 V2 W : List Value)
    (h1 : V1 ≠ []) (h2 : V2 ≠ []) (hW : W ≠ []) (a : String → Value) :
    (∃ sp, (build_equal_to (build_equal_to FilterSpecificationBuilder.fresh
        A V1) A V2).get_specification = some sp ∧
      sp.eval a = (decide (a A ∈ V1) || decide (a A ∈ V2))) ∧
    (∃ sp, (build_equal_to (build_equal_to (build_equal_to
        FilterSpecificationBuilder.fresh A V1) A V2) B
        W).get_specification = some sp ∧
      sp.eval a = ((decide (a A ∈ V1) || decide (a A ∈ V2)) &&
        decide (a B ∈ W))) := by
  have hb1 : build_equal_to FilterSpecificationBuilder.fresh A V1 =
      ⟨[(A, equalToCallSpec A V1)]⟩ := by
    simp [build_equal_to, recordSpec, FilterSpecificationBuilder.fresh, mget]
  have hb2 : build_equal_to ⟨[(A, equalToCallSpec A V1)]⟩ A V2 =
      ⟨[(A, FilterSpec.disjunction (equalToCallSpec A V1)
          (equalToCallSpec A V2))]⟩ := by
    simp [build_equal_to, recordSpec, mget, mset]
  have hb3 : build_equal_to ⟨[(A, FilterSpec.disjunction
      (equalToCallSpec A V1) (equalToCallSpec A V2))]⟩ B W =
      ⟨[(A, FilterSpec.disjunction (equalToCallSpec A V1)
          (equalToCallSpec A V2)), (B, equalToCallSpec B W)]⟩ := by
    have hAB : ¬ (A = B) := fun hh => hBA hh.symm
    simp [build_equal_to, recordSpec, mget, hAB]
  constructor
  · refine ⟨FilterSpec.disjunction (equalToCallSpec A V1)
      (equalToCallSpec A V2), ?_, ?_⟩
    · rw [hb1, hb2]; rfl
    · show ((equalToCallSpec A V1).eval a || (equalToCallSpec A V2).eval a)
        = _
      rw [eval_equalToCallSpec A V1 h1 a, eval_equalToCallSpec A V2 h2 a]
  · refine ⟨FilterSpec.conjunction
      (FilterSpec.disjunction (equalToCallSpec A V1)
        (equalToCallSpec A V2)) (equalToCallSpec B W), ?_, ?_⟩
    · rw [hb1, hb2, hb3]; rfl
    · show (((equalToCallSpec A V1).eval a ||
        (equalToCallSpec A V2).eval a) && (equalToCallSpec B W).eval a) = _
      rw [eval_equalToCallSpec A V1 h1 a, eval_equalToCallSpec A V2 h2 a,
        eval_equalToCallSpec B W hW a]

/-- Witness for C2 at the inputs of the repository's own tests. -/
theorem build_equal_to_or_within_and_across_witness :
    (∃ sp, (build_equal_to (build_equal_to FilterSpecificationBuilder.fresh
        "age" [Value.n 34]) "age" [Value.n 44]).get_specification
        = some sp ∧
      sp.eval (fun _ => Value.n 44) =
        (decide (Value.n 44 ∈ [Value.n 34]) ||
          decide (Value.n 44 ∈ [Value.n 44]))) ∧
    (∃ sp, (build_equal_to (build_equal_to (build_equal_to
        FilterSpecificationBuilder.fresh "age" [Value.n 34]) "age"
        [Value.n 44]) "name" [Value.s "Ni"]).get_specification = some sp ∧
      sp.eval (fun _ => Value.n 44) =
        ((decide (Value.n 44 ∈ [Value.n 34]) ||
          decide (Value.n 44 ∈ [Value.n 44])) &&
          decide (Value.n 44 ∈ [Value.s "Ni"]))) :=
  build_equal_to_or_within_and_across "age" "name" (by decide)
    [Value.n 34] [Value.n 44] [Value.s "Ni"] (by decide) (by decide)
    (by decide) (fun _ => Value.n 44)

/-- C3 counterexample: `build_starts_with` with the two-value list used by
`test_build_disjunction` yields two leaves joined by disjunction, not
exactly one leaf built from `V[0]`. -/
theorem build_starts_with_two_values_not_single_leaf :
    (build_starts_with FilterSpecificationBuilder.fresh "name"
        [Value.s "Ni", Value.s "Ol"]).get_specification =
      some (FilterSpec.disjunction
        (FilterSpec.startsWith "name" (Value.s "Ni"))
        (FilterSpec.startsWith "name" (Value.s "Ol"))) ∧
    FilterSpec.isLeaf (FilterSpec.disjunction
      (FilterSpec.startsWith "name" (Value.s "Ni"))
      (FilterSpec.startsWith "name" (Value.s "Ol"))) = false :=
  ⟨rfl, rfl⟩

/-- One leaf per value, folded together by disjunction: the call-level
specification a multi-valued `build_<op>` call constructs for every
single-valued operator other than `equal_to`. -/
def orLeaves (leaf : Value → FilterSpec) (v w : Value) (ws : List Value) :
    FilterSpec :=
  (w :: ws).foldl (fun acc u => FilterSpec.disjunction acc (leaf u)) (leaf v)

/-- C3 amended: a `build_<op>` call with a single-element value list `[v]`
builds exactly one leaf from `v` (wrapped in a negation for the "not_"
variants); with two or more values, `build_equal_to` instead builds a
single set-membership (contained) leaf over the whole value list, while
the other single-valued operators build one leaf per value combined by
disjunction; `build_in_range` takes `values[0]` as the inclusive
(lower, upper) bound pair. -/
theorem build_single_valued_one_leaf_per_value
    (A : String) (v lo hi : Value) (rest : List (Value × Value))
    (a : String → Value) :
    ((build_equal_to FilterSpecificationBuilder.fresh A
        [v]).get_specification = some (FilterSpec.equalTo A v)) ∧
    ((build_starts_with FilterSpecificationBuilder.fresh A
        [v]).get_specification = some (FilterSpec.startsWith A v)) ∧
    ((build_ends_with FilterSpecificationBuilder.fresh A
        [v]).get_specification = some (FilterSpec.endsWith A v)) ∧
    ((build_contains FilterSpecificationBuilder.fresh A
        [v]).get_specification = some (FilterSpec.containsValue A v)) ∧
    ((build_greater_than FilterSpecificationBuilder.fresh A
        [v]).get_specification = some (FilterSpec.greaterThan A v)) ∧
    ((build_greater_than_or_equal_to FilterSpecificationBuilder.fresh A
        [v]).get_specification =
      some (FilterSpec.greaterThanOrEqualTo A v)) ∧
    ((build_less_than FilterSpecificationBuilder.fresh A
        [v]).get_specification = some (FilterSpec.lessThan A v)) ∧
    ((build_less_than_or_equal_to FilterSpecificationBuilder.fresh A
        [v]).get_specification =
      some (FilterSpec.lessThanOrEqualTo A v)) ∧
    ((build_not_equal_to FilterSpecificationBuilder.fresh A
        [v]).get_specification =
      some (FilterSpec.negation (FilterSpec.equalTo A v))) ∧
    ((build_not_starts_with FilterSpecificationBuilder.fresh A
        [v]).get_specification =
      some (FilterSpec.negation (FilterSpec.startsWith A v))) ∧
    ((build_not_ends_with FilterSpecificationBuilder.fresh A
        [v]).get_specification =
      some (FilterSpec.negation (FilterSpec.endsWith A v))) ∧
    ((build_not_contains FilterSpecificationBuilder.fresh A
        [v]).get_specification =
      some (FilterSpec.negation (FilterSpec.containsValue A v))) ∧
    ((build_in_range FilterSpecificationBuilder.fresh A
        ((lo, hi) :: rest)).get_specification =
      some (FilterSpec.inRange A lo hi)) ∧
    ((build_not_in_range FilterSpecificationBuilder.fresh A
        ((lo, hi) :: rest)).get_specification =
      some (FilterSpec.negation (FilterSpec.inRange A lo hi))) ∧
    ((FilterSpec.inRange A lo hi).eval a =
      (Value.le lo (a A) && Value.le (a A) hi)) ∧
    (∀ (w : Value) (ws : List Value),
      (build_equal_to FilterSpecificationBuilder.fresh A
          (v :: w :: ws)).get_specification =
        some (FilterSpec.contained A (v :: w :: ws))) ∧
    (∀ (w : Value) (ws : List Value),
      (build_not_equal_to FilterSpecificationBuilder.fresh A
          (v :: w :: ws)).get_specification =
        some (FilterSpec.negation (FilterSpec.contained A (v :: w :: ws)))) ∧
    (∀ (w : Value) (ws : List Value),
      (build_starts_with FilterSpecificationBuilder.fresh A
          (v :: w :: ws)).get_specification =
        some (orLeaves (FilterSpec.startsWith A) v w ws)) ∧
    (∀ (w : Value) (ws : List Value),
      (build_not_starts_with FilterSpecificationBuilder.fresh A
          (v :: w :: ws)).get_specification =
        some (FilterSpec.negation (orLeaves (FilterSpec.startsWith A)
          v w ws))) ∧
    (∀ (w : Value) (ws : List Value),
      (build_ends_with FilterSpecificationBuilder.fresh A
          (v :: w :: ws)).get_specification =
        some (orLeaves (FilterSpec.endsWith A) v w ws)) ∧
    (∀ (w : Value) (ws : List Value),
      (build_not_ends_with FilterSpecificationBuilder.fresh A
          (v :: w :: ws)).get_specification =
        some (FilterSpec.negation (orLeaves (FilterSpec.endsWith A)
          v w ws))) ∧
    (∀ (w : Value) (ws : List Value),
      (build_contains FilterSpecificationBuilder.fresh A
          (v :: w :: ws)).get_specification =
        some (orLeaves (FilterSpec.containsValue A) v w ws)) ∧
    (∀ (w : Value) (ws : List Value),
      (build_not_contains FilterSpecificationBuilder.fresh A
          (v :: w :: ws)).get_specification =
        some (FilterSpec.negation (orLeaves (FilterSpec.containsValue A)
          v w ws))) ∧
    (∀ (w : Value) (ws : List Value),
      (build_greater_than FilterSpecificationBuilder.fresh A
          (v :: w :: ws)).get_specification =
        some (orLeaves (FilterSpec.greaterThan A) v w ws)) ∧
    (∀ (w : Value) (ws : List Value),
      (build_greater_than_or_equal_to FilterSpecificationBuilder.fresh A
          (v :: w :: ws)).get_specification =
        some (orLeaves (FilterSpec.greaterThanOrEqualTo A) v w ws)) ∧
    (∀ (w : Value) (ws : List Value),
      (build_less_than FilterSpecificationBuilder.fresh A
          (v :: w :: ws)).get_specification =
        some (orLeaves (FilterSpec.lessThan A) v w ws)) ∧
    (∀ (w : Value) (ws : List Value),
      (build_less_than_or_equal_to FilterSpecificationBuilder.fresh A
          (v :: w :: ws)).get_specification =
        some (orLeaves (FilterSpec.lessThanOrEqualTo A) v w ws)) ∧
    (∀ (leaf : Value → FilterSpec) (negate : Bool) (w : Value)
        (ws : List Value),
      (buildSingleValued leaf negate FilterSpecificationBuilder.fresh A
          (v :: w :: ws)).get_specification =
        some (if negate then
          FilterSpec.negation (orLeaves leaf v w ws)
        else
          orLeaves leaf v w ws)) := by
  refine ⟨rfl, rfl, rfl, rfl, rfl, rfl, rfl, rfl, rfl, rfl, rfl, rfl, rfl,
    rfl, rfl, fun w ws => rfl, fun w ws => rfl, fun w ws => rfl,
    fun w ws => rfl, fun w ws => rfl, fun w ws => rfl, fun w ws => rfl,
    fun w ws => rfl, fun w ws => rfl, fun w ws => rfl, fun w ws => rfl,
    fun w ws => rfl, ?_⟩
  intro leaf negate w ws
  cases negate <;> rfl

/-! ## Collection slicing (`GetCollectionView.__slice_collection`) -/

/-- Modelled from the spec: `UrlPartsConverter.make_slice_key` (module
`everest/url.py` not in the excerpt) turns the two non-negative integers
into the window `[start, start + size)`. -/
def make_slice_key (start size : Nat) : Nat × Nat := (start, start + size)

/-- `GetCollectionView.__slice_collection`: `start` defaults to 0, `size`
defaults to the collection's `default_limit`, and the window is clamped to
`max_limit` by shrinking `stop`. -/
def slice_collection (start_param size_param : Option Nat)
    (default_limit max_limit : Nat) : Nat × Nat :=
  let start := start_param.getD 0
  let size := size_param.getD default_limit
  let slice_key := make_slice_key start size
  if slice_key.2 - slice_key.1 > max_limit then
    (slice_key.1, slice_key.1 + max_limit)
  else
    slice_key

/-- C4: the slice window defaults `start` to 0 and `size` to the default
page size, its length never exceeds the maximum page size, the clamp only
shrinks `stop` (never moves `start`), and an unclamped request keeps its
full length. -/
theorem slice_collection_clamped (start_param size_param : Option Nat)
    (default_limit max_limit : Nat) :
    (slice_collection start_param size_param default_limit max_limit).1 =
      start_param.getD 0 ∧
    (slice_collection start_param size_param default_limit max_limit).2 -
      (slice_collection start_param size_param default_limit max_limit).1 ≤
      max_limit ∧
    (slice_collection start_param size_param default_limit max_limit).2 ≤
      start_param.getD 0 + size_param.getD default_limit ∧
    (size_param.getD default_limit ≤ max_limit →
      slice_collection start_param size_param default_limit max_limit =
        (start_param.getD 0,
          start_param.getD 0 + size_param.getD default_limit)) := by
  unfold slice_collection make_slice_key
  by_cases h : start_param.getD 0 + size_param.getD default_limit -
      start_param.getD 0 > max_limit
  · rw [if_pos h]
    refine ⟨rfl, by omega, by omega, fun hle => ?_⟩
    omega
  · rw [if_neg h]
    refine ⟨rfl, by omega, by omega, fun hle => rfl⟩

/-- The spec's clamp example: requested `size=1000` against a configured
maximum of `100` yields a window of length 100 with `start` unchanged. -/
theorem model_slice_clamp_example :
    slice_collection (some 5) (some 1000) 100 100 = (5, 105) := rfl

/-! ## Batch computation and collection-view navigation links -/

/-- Modelled from the spec: the `Batch` page descriptor (`everest/batch.py`
is not in the excerpt); §4.5 gives `index = start / size` (integer
division), `number = ceil(total_size / size)`, and the four navigation
batches with their definedness conditions (undefined encoded as `none`).
Integer (not natural) arithmetic, as in the Python source. -/
structure Batch where
  start : Int
  size : Int
  total_size : Int
deriving DecidableEq

def Batch.index (b : Batch) : Int := b.start / b.size

def Batch.number (b : Batch) : Int := (b.total_size + b.size - 1) / b.size

def Batch.first (b : Batch) : Option (Int × Int) :=
  if b.number > 0 then some (0, b.size) else none

def Batch.previous (b : Batch) : Option (Int × Int) :=
  if b.index > 0 then some (b.start - b.size, b.size) else none

def Batch.next (b : Batch) : Option (Int × Int) :=
  if b.index < b.number - 1 then some (b.start + b.size, b.size) else none

def Batch.last (b : Batch) : Option (Int × Int) :=
  if b.number > 0 then some ((b.number - 1) * b.size, b.size) else none

inductive LinkRel where
  | selfRel
  | first
  | previous
  | next
  | last
deriving DecidableEq

/-- `GetCollectionView.__call__` link construction: the navigation links
added to the result, in order; `none` models the code dereferencing an
undefined (None) navigation batch in `_create_nav_link`.  The `first` link
is guarded by `index > 0`, `previous` and `next` by their own None-checks,
while the `last` link is added whenever `index != number - 1` with no
None-check on `batch.last`. -/
def collection_view_links (b : Batch) : Option (List LinkRel) :=
  let step1 : Option (List LinkRel) :=
    if b.index > 0 then
      match b.first with
      | some _ => some [LinkRel.selfRel, LinkRel.first]
      | none => none
    else some [LinkRel.selfRel]
  match step1 with
  | none => none
  | some l₁ =>
      let l₂ := match b.previous with
        | some _ => l₁ ++ [LinkRel.previous]
        | none => l₁
      let l₃ := match b.next with
        | some _ => l₂ ++ [LinkRel.next]
        | none => l₂
      if b.index ≠ b.number - 1 then
        match b.last with
        | some _ => some (l₃ ++ [LinkRel.last])
        | none => none
      else some l₃

/-- C5 counterexample: at `total_size = 0` the claim fails twice: with
`start = 10, size = 10` the `previous` batch is defined (`index = 1 > 0`),
and with `start = 0, size = 10` the view's last-link condition
`index != number - 1` (0 ≠ -1) holds, so the view dereferences the
undefined `last` batch instead of adding no link. -/
theorem batch_total_zero_counterexample :
    (Batch.mk 10 10 0).number = 0 ∧
    (Batch.mk 10 10 0).previous = some (0, 10) ∧
    collection_view_links (Batch.mk 0 10 0) = none := by
  decide

/-- C5 amended: at `total_size = 0` (with `size > 0`, `start ≥ 0`) the page
count is 0 and `next` and `last` are undefined, but `previous` is undefined
only when `start < size` (`index = 0`); the view adds no previous or next
link, yet its last-link condition holds (`index ≥ 0 ≠ number - 1 = -1`),
so it dereferences the undefined `last` batch rather than returning a
result without navigation links. -/
theorem batch_total_zero_amended (start size : Int)
    (hstart : 0 ≤ start) (hsize : 0 < size) :
    (Batch.mk start size 0).number = 0 ∧
    (Batch.mk start size 0).next = none ∧
    (Batch.mk start size 0).last = none ∧
    ((Batch.mk start size 0).previous = none ↔ start < size) ∧
    collection_view_links (Batch.mk start size 0) = none := by
  have hnum : (Batch.mk start size 0).number = 0 := by
    show (0 + size - 1) / size = 0
    rw [Int.zero_add]
    exact Int.ediv_eq_zero_of_lt (by omega) (by omega)
  have hidx : 0 ≤ (Batch.mk start size 0).index :=
    Int.ediv_nonneg hstart (le_of_lt hsize)
  have hnext : (Batch.mk start size 0).next = none := by
    unfold Batch.next
    rw [hnum, if_neg]
    show ¬ (Batch.mk start size 0).index < 0 - 1
    omega
  have hlast : (Batch.mk start size 0).last = none := by
    unfold Batch.last
    rw [hnum, if_neg]
    omega
  have hne : (Batch.mk start size 0).index ≠
      (Batch.mk start size 0).number - 1 := by
    rw [hnum]
    omega
  refine ⟨hnum, hnext, hlast, ?_, ?_⟩
  · unfold Batch.previous
    constructor
    · intro hp
      by_cases hgt : (Batch.mk start size 0).index > 0
      · rw [if_pos hgt] at hp; cases hp
      · by_contra hge
        push_neg at hge
        have h1 : 1 ≤ start / size :=
          (Int.le_ediv_iff_mul_le hsize).mpr (by omega)
        exact hgt (by show 0 < start / size; omega)
    · intro hlt
      have h0 : start / size = 0 := Int.ediv_eq_zero_of_lt hstart hlt
      have hng : ¬ (Batch.mk start size 0).index > 0 := by
        show ¬ 0 < start / size
        omega
      rw [if_neg hng]
  · by_cases hgt : (Batch.mk start size 0).index > 0
    · have hfirst : (Batch.mk start size 0).first = none := by
        unfold Batch.first
        rw [hnum, if_neg]
        omega
      simp [collection_view_links, hgt, hfirst]
    · have hprev : (Batch.mk start size 0).previous = none := by
        unfold Batch.previous
        rw [if_neg hgt]
      simp [collection_view_links, hgt, hprev, hnext, hlast, hne]

/-- Witness for the amended C5 at `start = 10, size = 10, total = 0`. -/
theorem batch_total_zero_amended_witness :
    (Batch.mk 10 10 0).number = 0 ∧
    (Batch.mk 10 10 0).next = none ∧
    (Batch.mk 10 10 0).last = none ∧
    ((Batch.mk 10 10 0).previous = none ↔ (10 : Int) < 10) ∧
    collection_view_links (Batch.mk 10 10 0) = none :=
  batch_total_zero_amended 10 10 (by decide) (by decide)

/-! ## Entity repository (`EntityRepository.new`) -/

/-- The `RuntimeError('Repository has not been initialized yet.')`. -/
inductive RepoError where
  | notInitialized
deriving DecidableEq

/-- `EntityRepository` (everest/entities/repository.py): the aggregate
class's `create`, the `get_entity_class` resolution, and the owning entity
store's `session_factory` (None until the store is initialized).  Resource,
entity-class, session and aggregate types are abstract parameters. -/
structure EntityRepository (R E S A : Type) where
  aggregate_create : E → S → A
  get_entity_class : R → E
  session_factory : Option (Unit → S)

/-- `EntityRepository.new`. -/
def EntityRepository.new {R E S A : Type} (r : EntityRepository R E S A)
    (rc : R) : Except RepoError A :=
  let entity_cls := r.get_entity_class rc
  match r.session_factory with
  | none => Except.error RepoError.notInitialized
  | some f => Except.ok (r.aggregate_create entity_cls (f ()))

/-- C8: `new` raises the configuration error synchronously while the owning
store's session factory is still None, and on an initialized store returns
the aggregate created from the resource's entity class and a freshly
produced session. -/
theorem repository_new_config_error {R E S A : Type}
    (r : EntityRepository R E S A) (rc : R) :
    (r.session_factory = none →
      EntityRepository.new r rc = Except.error RepoError.notInitialized) ∧
    (∀ f, r.session_factory = some f →
      EntityRepository.new r rc =
        Except.ok (r.aggregate_create (r.get_entity_class rc) (f ()))) := by
  constructor
  · intro h
    unfold EntityRepository.new
    rw [h]
  · intro f h
    unfold EntityRepository.new
    rw [h]

/-- Witness for C8 on concrete uninitialized and initialized repositories. -/
theorem repository_new_config_error_witness :
    EntityRepository.new
        (⟨fun e s => e + s, fun r => r, none⟩ :
          EntityRepository Nat Nat Nat Nat) 7 =
      Except.error RepoError.notInitialized ∧
    EntityRepository.new
        (⟨fun e s => e + s, fun r => r, some (fun _ => 3)⟩ :
          EntityRepository Nat Nat Nat Nat) 7 = Except.ok 10 :=
  ⟨(repository_new_config_error
      (⟨fun e s => e + s, fun r => r, none⟩ :
        EntityRepository Nat Nat Nat Nat) 7).1 rfl,
    (repository_new_config_error
      (⟨fun e s => e + s, fun r => r, some (fun _ => 3)⟩ :
        EntityRepository Nat Nat Nat Nat) 7).2 (fun _ => 3) rfl⟩

end Everest
